import Mathlib

/-!
Shallow embedding of `src/成績分析プログラム.py`, a student-score CSV
analyzer, together with proofs of its specification's testable properties.

Modelling conventions:
* A CSV data file is a `List RawRow` (one entry per data row, the four
  columns as strings, as produced by `csv.DictReader`); a missing file is
  `FileInput.notFound`.
* Python exceptions are the `PyError` type; code regions guarded by
  `try/except` are functions into `Except PyError _`, and the
  `except` handlers convert errors to the `None` sentinel (`Option.none`),
  exactly as the source does.
* Python `int` scores are `Int`; Python `float` statistics are modelled as
  exact rationals `ℚ` (the source's values all arise from integer data,
  classroom-scale, where binary floating point agrees with the exact
  rational order and the spec treats the values as exact).
* Python string comparison (used by `min`/`max` over date strings) is
  lexicographic by Unicode code point; Lean's `String` linear order is
  lexicographic by `Char` (code point), the same order.
* Console output is modelled as a list of `OutEvent` values carrying the
  data each `print` statement displays, in program order; pure formatting
  (emoji, padding) is not modelled.
-/

namespace SeisekiBunseki

/-- Python exception kinds that can arise in this program. -/
inductive PyError where
  | fileNotFoundError
  | valueError
  | statisticsError
deriving DecidableEq, Repr

/-- One CSV data row as read by `csv.DictReader`: the four columns
`名前` (name), `日付` (date), `科目` (subject), `スコア` (score, unparsed). -/
structure RawRow where
  name : String
  date : String
  subject : String
  score : String
deriving DecidableEq, Repr

/-- One parsed record, after `int(row['スコア'])` succeeded. -/
structure Record where
  name : String
  date : String
  subject : String
  score : Int
deriving DecidableEq, Repr

/-- The input file: either absent (`open` raises `FileNotFoundError`)
or present with a list of data rows. -/
inductive FileInput where
  | notFound
  | content (rows : List RawRow)
deriving DecidableEq, Repr

/-- Value of a decimal digit character, `none` for a non-digit. -/
def digitVal (c : Char) : Option Nat :=
  if c.toNat < 48 then none
  else if 57 < c.toNat then none
  else some (c.toNat - 48)

/-- Accumulate a base-10 natural number from a digit list; `none` on any
non-digit. -/
def parseNatDigits : List Char → Nat → Option Nat
  | [], acc => some acc
  | c :: rest, acc =>
    match digitVal c with
    | none => none
    | some d => parseNatDigits rest (acc * 10 + d)

/-- Model of Python's `int(s)` on the score strings: an optional minus sign
followed by at least one decimal digit (Python's extra leniency —
surrounding whitespace, a plus sign, digit-group underscores — is not
modelled; it does not affect any claim). `none` models the raised
`ValueError`. -/
def pyInt (s : String) : Option Int :=
  match s.data with
  | [] => none
  | '-' :: rest =>
    match rest with
    | [] => none
    | _ :: _ => (parseNatDigits rest 0).map (fun n => -(n : Int))
  | cs => (parseNatDigits cs 0).map (fun n => (n : Int))

/-- The body of the CSV reading loop for one row: build the record dict,
parsing `スコア` with `int` (a failure raises `ValueError`). -/
def parseRow (r : RawRow) : Except PyError Record :=
  match pyInt r.score with
  | some n => Except.ok { name := r.name, date := r.date, subject := r.subject, score := n }
  | none => Except.error PyError.valueError

/-- A Python `for` loop that appends `g a` for each element, aborting at
the first raised exception. -/
def mapExcept (g : α → Except PyError β) : List α → Except PyError (List β)
  | [] => Except.ok []
  | a :: l =>
    match g a with
    | Except.error e => Except.error e
    | Except.ok b =>
      match mapExcept g l with
      | Except.error e => Except.error e
      | Except.ok bs => Except.ok (b :: bs)

/-- The CSV reading loop: parse every row in order, first failure aborts. -/
def parseData (rows : List RawRow) : Except PyError (List Record) :=
  mapExcept parseRow rows

/-- Python's `max(iterable)`: scan keeping the current maximum
(`if cur < y: cur = y`). -/
def pyMaxList [LinearOrder α] (x : α) (xs : List α) : α :=
  xs.foldl (fun cur y => if cur < y then y else cur) x

/-- Python's `min(iterable)`: scan keeping the current minimum. -/
def pyMinList [LinearOrder α] (x : α) (xs : List α) : α :=
  xs.foldl (fun cur y => if y < cur then y else cur) x

/-- Python's `max` builtin: raises `ValueError` on an empty sequence. -/
def pyMax [LinearOrder α] : List α → Except PyError α
  | [] => Except.error PyError.valueError
  | x :: xs => Except.ok (pyMaxList x xs)

/-- Python's `min` builtin: raises `ValueError` on an empty sequence. -/
def pyMin [LinearOrder α] : List α → Except PyError α
  | [] => Except.error PyError.valueError
  | x :: xs => Except.ok (pyMinList x xs)

/-- Python's `statistics.mean` on a list of ints: the exact arithmetic
average as a rational; raises `StatisticsError` on an empty sequence. -/
def pyMean : List Int → Except PyError ℚ
  | [] => Except.error PyError.statisticsError
  | l@(_ :: _) => Except.ok ((l.sum : ℚ) / (l.length : ℚ))

/-- Floor of a rational (its reduced denominator is positive, so floored
integer division of numerator by denominator). -/
def ratFloor (q : ℚ) : ℤ := Int.fdiv q.num (q.den : ℤ)

/-- Round a rational to the nearest integer, ties to even — the rounding
rule of Python's `round` builtin. -/
def roundHalfEven (q : ℚ) : ℤ :=
  let f := ratFloor q
  if q - (f : ℚ) < 1/2 then f
  else if (1 : ℚ)/2 < q - (f : ℚ) then f + 1
  else if f % 2 = 0 then f else f + 1

/-- Python's `round(x, 2)`: round to 2 decimal places, ties to even. -/
def round2 (q : ℚ) : ℚ := ((roundHalfEven (q * 100) : ℚ)) / 100

/-- `students = list(set(row['名前'] for row in data))`: the distinct
names. CPython's set enumeration order is unspecified; `dedup` is one
determinization of it (no claim depends on the enumeration order). -/
def students (data : List Record) : List String :=
  (data.map (fun r => r.name)).dedup

/-- `subjects = list(set(row['科目'] for row in data))`: the distinct
subjects (same determinization note as `students`). -/
def subjects (data : List Record) : List String :=
  (data.map (fun r => r.subject)).dedup

/-- `dates = [row['日付'] for row in data]`. -/
def dates (data : List Record) : List String :=
  data.map (fun r => r.date)

/-- `student_scores = [row['スコア'] for row in data if row['名前'] == student]`. -/
def student_scores (data : List Record) (student : String) : List Int :=
  (data.filter (fun r => r.name = student)).map (fun r => r.score)

/-- `subject_scores = [row['スコア'] for row in data if row['科目'] == subject]`. -/
def subject_scores (data : List Record) (subject : String) : List Int :=
  (data.filter (fun r => r.subject = subject)).map (fun r => r.score)

/-- The per-student statistics dict: `平均点` (mean, rounded to 2 places),
`最高点` (max), `最低点` (min), `テスト回数` (count), `スコア詳細` (values). -/
structure AggregateStats where
  mean : ℚ
  max : Int
  min : Int
  count : Nat
  values : List Int
deriving DecidableEq, Repr

/-- The body of the per-student loop, building the statistics dict entry
in source order: `round(statistics.mean(scores), 2)`, `max(scores)`,
`min(scores)`, `len(scores)`, `scores`. -/
def aggregateScores (scores : List Int) : Except PyError AggregateStats :=
  match pyMean scores with
  | Except.error e => Except.error e
  | Except.ok m =>
    match pyMax scores with
    | Except.error e => Except.error e
    | Except.ok mx =>
      match pyMin scores with
      | Except.error e => Except.error e
      | Except.ok mn =>
        Except.ok { mean := round2 m, max := mx, min := mn,
                    count := scores.length, values := scores }

/-- The `for student in students` loop of `analyze_student_scores`:
the results dict as an association list keyed by student name. -/
def student_results (data : List Record) :
    Except PyError (List (String × AggregateStats)) :=
  mapExcept (fun s =>
    match aggregateScores (student_scores data s) with
    | Except.error e => Except.error e
    | Except.ok st => Except.ok (s, st)) (students data)

/-- One console output event, carrying the data a `print` displays. -/
inductive OutEvent where
  | overviewCounts (total nStudents nSubjects : Nat)
  | dateRange (dmin dmax : String)
  | studentBlock (name : String) (stats : AggregateStats)
  | classSummary (classMean : ℚ) (classMax classMin : Int)
  | rankingList (ranked : List (String × AggregateStats))
  | subjectStats (subject : String) (mean : ℚ) (mx mn : Int) (count : Nat)
  | errFileNotFound
  | errGeneric
  | errSubject
deriving DecidableEq, Repr

/-- The `try` body of `analyze_student_scores`: parse the file, print the
overview (counts, then the date range via `min(dates)`/`max(dates)`),
then build the per-student results. Returns the output events printed so
far together with either the results dict or the first raised exception. -/
def analyze_core (rows : List RawRow) :
    List OutEvent × Except PyError (List (String × AggregateStats)) :=
  match parseData rows with
  | Except.error e => ([], Except.error e)
  | Except.ok data =>
    let evCounts := OutEvent.overviewCounts data.length
      (students data).length (subjects data).length
    match pyMin (dates data) with
    | Except.error e => ([evCounts], Except.error e)
    | Except.ok dmin =>
      match pyMax (dates data) with
      | Except.error e => ([evCounts], Except.error e)
      | Except.ok dmax =>
        match student_results data with
        | Except.error e =>
          ([evCounts, OutEvent.dateRange dmin dmax], Except.error e)
        | Except.ok results =>
          ([evCounts, OutEvent.dateRange dmin dmax], Except.ok results)

/-- `analyze_student_scores(csv_file)`: the `try` body wrapped by
`except FileNotFoundError` and `except Exception`, both of which print an
error line and return `None`. Result: the returned value (results dict or
`None`) and the console output. -/
def analyze_student_scores (input : FileInput) :
    Option (List (String × AggregateStats)) × List OutEvent :=
  match input with
  | FileInput.notFound => (none, [OutEvent.errFileNotFound])
  | FileInput.content rows =>
    match analyze_core rows with
    | (evs, Except.ok results) => (some results, evs)
    | (evs, Except.error PyError.fileNotFoundError) =>
      (none, evs ++ [OutEvent.errFileNotFound])
    | (evs, Except.error _) => (none, evs ++ [OutEvent.errGeneric])

/-- `statistics.mean` over the per-student rounded means (`all_averages`),
as used for the `クラス平均` line; total function because the caller is
guarded (`if not results: return`), so the list is never empty there. -/
def classMean (results : List (String × AggregateStats)) : ℚ :=
  ((results.map (fun p => p.2.mean)).sum : ℚ) / (results.length : ℚ)

/-- `display_results(results)`: early return on a falsy (empty) dict, else
one block per student in dict order followed by the overall statistics
(`クラス平均` = mean of the rounded means, `クラス最高点` = max of the
per-student maxima, `クラス最低点` = min of the per-student minima). -/
def display_results : List (String × AggregateStats) → List OutEvent
  | [] => []
  | p :: ps =>
    ((p :: ps).map (fun q => OutEvent.studentBlock q.1 q.2)) ++
      [OutEvent.classSummary (classMean (p :: ps))
        (pyMaxList p.2.max (ps.map (fun q => q.2.max)))
        (pyMinList p.2.min (ps.map (fun q => q.2.min)))]

/-- The sort key comparison of `sorted(results.items(), key=lambda x:
x[1]['平均点'], reverse=True)`: `a` may precede `b` iff `a`'s mean is at
least `b`'s. A stable sort under this relation is exactly Python's stable
descending sort with ties in original order. -/
def rankingLe (a b : String × AggregateStats) : Bool :=
  decide (b.2.mean ≤ a.2.mean)

/-- `sorted_students`: the results sorted by mean, descending, stable. -/
def sorted_students (results : List (String × AggregateStats)) :
    List (String × AggregateStats) :=
  results.mergeSort rankingLe

/-- `create_ranking(results)`: early return on a falsy (empty) dict, else
print the ranking sorted by mean descending. -/
def create_ranking : List (String × AggregateStats) → List OutEvent
  | [] => []
  | p :: ps => [OutEvent.rankingList (sorted_students (p :: ps))]

/-- The `for subject in subjects` loop of `analyze_by_subject`: one
statistics line per subject (mean unrounded, max, min, count). -/
def subject_results (data : List Record) : Except PyError (List OutEvent) :=
  mapExcept (fun subj =>
    match pyMean (subject_scores data subj) with
    | Except.error e => Except.error e
    | Except.ok m =>
      match pyMax (subject_scores data subj) with
      | Except.error e => Except.error e
      | Except.ok mx =>
        match pyMin (subject_scores data subj) with
        | Except.error e => Except.error e
        | Except.ok mn =>
          Except.ok (OutEvent.subjectStats subj m mx mn
            (subject_scores data subj).length)) (subjects data)

/-- `analyze_by_subject(csv_file)`: re-read and re-parse the file, print
per-subject statistics; the catch-all `except Exception` prints an error
line instead on any raised exception. -/
def analyze_by_subject (input : FileInput) : List OutEvent :=
  match input with
  | FileInput.notFound => [OutEvent.errSubject]
  | FileInput.content rows =>
    match parseData rows with
    | Except.error _ => [OutEvent.errSubject]
    | Except.ok data =>
      match subject_results data with
      | Except.error _ => [OutEvent.errSubject]
      | Except.ok evs => evs

/-- `main()`: analyze, and only if the result is truthy (not `None` and
not an empty dict) display the results, the ranking and the per-subject
analysis. Returns the full console transcript. -/
def main (input : FileInput) : List OutEvent :=
  match analyze_student_scores input with
  | (none, evs) => evs
  | (some results, evs) =>
    if results = [] then evs
    else evs ++ display_results results ++ create_ranking results ++
      analyze_by_subject input

/-- Two sequential runs of `analyze_student_scores` on the same input:
the pair of returned values and the concatenated console output. -/
def run_twice (input : FileInput) :
    (Option (List (String × AggregateStats)) ×
      Option (List (String × AggregateStats))) × List OutEvent :=
  let r1 := analyze_student_scores input
  let r2 := analyze_student_scores input
  ((r1.1, r2.1), r1.2 ++ r2.2)

/-! ## Helper lemmas -/

/-- If every loop iteration succeeds with `f a`, the loop returns the map. -/
theorem mapExcept_ok {α β : Type} {g : α → Except PyError β} {f : α → β} :
    ∀ l : List α, (∀ a ∈ l, g a = Except.ok (f a)) →
      mapExcept g l = Except.ok (l.map f)
  | [], _ => rfl
  | a :: l, h => by
    have ha := h a (List.mem_cons_self a l)
    have hl := mapExcept_ok l (fun b hb => h b (List.mem_cons_of_mem a hb))
    simp [mapExcept, ha, hl]

theorem pyMaxList_cons {α : Type} [LinearOrder α] (x z : α) (t : List α) :
    pyMaxList x (z :: t) = pyMaxList (if x < z then z else x) t := rfl

theorem pyMinList_cons {α : Type} [LinearOrder α] (x z : α) (t : List α) :
    pyMinList x (z :: t) = pyMinList (if z < x then z else x) t := rfl

/-- The scan maximum is one of the scanned elements. -/
theorem pyMaxList_mem {α : Type} [LinearOrder α] (xs : List α) :
    ∀ x, pyMaxList x xs ∈ x :: xs := by
  induction xs with
  | nil => intro x; simp [pyMaxList]
  | cons z t ih =>
    intro x
    rw [pyMaxList_cons]
    by_cases h : x < z
    · rw [if_pos h]
      have := ih z
      simp only [List.mem_cons] at this ⊢
      tauto
    · rw [if_neg h]
      have := ih x
      simp only [List.mem_cons] at this ⊢
      tauto

/-- The scan maximum bounds every scanned element from above. -/
theorem le_pyMaxList {α : Type} [LinearOrder α] (xs : List α) :
    ∀ x, ∀ y ∈ x :: xs, y ≤ pyMaxList x xs := by
  induction xs with
  | nil =>
    intro x y hy
    simp only [List.mem_cons, List.not_mem_nil, or_false] at hy
    subst hy
    simp [pyMaxList]
  | cons z t ih =>
    intro x y hy
    rw [pyMaxList_cons]
    simp only [List.mem_cons] at hy
    by_cases h : x < z
    · rw [if_pos h]
      rcases hy with rfl | rfl | hy
      · exact le_of_lt (lt_of_lt_of_le h (ih z z (List.mem_cons_self z t)))
      · exact ih y y (List.mem_cons_self y t)
      · exact ih z y (List.mem_cons_of_mem z hy)
    · rw [if_neg h]
      rcases hy with rfl | rfl | hy
      · exact ih y y (List.mem_cons_self y t)
      · exact le_trans (le_of_not_lt h) (ih x x (List.mem_cons_self x t))
      · exact ih x y (List.mem_cons_of_mem x hy)

/-- The scan minimum is one of the scanned elements. -/
theorem pyMinList_mem {α : Type} [LinearOrder α] (xs : List α) :
    ∀ x, pyMinList x xs ∈ x :: xs := by
  induction xs with
  | nil => intro x; simp [pyMinList]
  | cons z t ih =>
    intro x
    rw [pyMinList_cons]
    by_cases h : z < x
    · rw [if_pos h]
      have := ih z
      simp only [List.mem_cons] at this ⊢
      tauto
    · rw [if_neg h]
      have := ih x
      simp only [List.mem_cons] at this ⊢
      tauto

/-- The scan minimum bounds every scanned element from below. -/
theorem pyMinList_le {α : Type} [LinearOrder α] (xs : List α) :
    ∀ x, ∀ y ∈ x :: xs, pyMinList x xs ≤ y := by
  induction xs with
  | nil =>
    intro x y hy
    simp only [List.mem_cons, List.not_mem_nil, or_false] at hy
    subst hy
    simp [pyMinList]
  | cons z t ih =>
    intro x y hy
    rw [pyMinList_cons]
    simp only [List.mem_cons] at hy
    by_cases h : z < x
    · rw [if_pos h]
      rcases hy with rfl | rfl | hy
      · exact le_trans (ih z z (List.mem_cons_self z t)) (le_of_lt h)
      · exact ih y y (List.mem_cons_self y t)
      · exact ih z y (List.mem_cons_of_mem z hy)
    · rw [if_neg h]
      rcases hy with rfl | rfl | hy
      · exact ih y y (List.mem_cons_self y t)
      · exact le_trans (ih x x (List.mem_cons_self x t)) (le_of_not_lt h)
      · exact ih x y (List.mem_cons_of_mem x hy)

/-- The statistics-dict entry the loop body computes on a nonempty score
list, written as a pure value. -/
def aggregateValue (scores : List Int) : AggregateStats :=
  { mean := round2 ((scores.sum : ℚ) / (scores.length : ℚ)),
    max := pyMaxList (scores.headD 0) scores.tail,
    min := pyMinList (scores.headD 0) scores.tail,
    count := scores.length,
    values := scores }

/-- On a nonempty score list the loop body raises nothing and returns the
statistics entry. -/
theorem aggregateScores_eq_ok : ∀ scores : List Int, scores ≠ [] →
    aggregateScores scores = Except.ok (aggregateValue scores)
  | [], h => absurd rfl h
  | _ :: _, _ => rfl

/-- Every enumerated key has at least one matching record, hence a
nonempty score list. -/
theorem key_scores_ne_nil (key : Record → String) {data : List Record}
    {s : String} (h : s ∈ (data.map key).dedup) :
    (data.filter (fun r => key r = s)).map (fun r => r.score) ≠ [] := by
  rw [List.mem_dedup] at h
  obtain ⟨r, hr, hrs⟩ := List.mem_map.mp h
  have hmemf : r ∈ data.filter (fun r => key r = s) :=
    List.mem_filter.mpr ⟨hr, by simp [hrs]⟩
  intro hcon
  have : r.score ∈ (data.filter (fun r => key r = s)).map (fun r => r.score) :=
    List.mem_map.mpr ⟨r, hmemf, rfl⟩
  rw [hcon] at this
  exact List.not_mem_nil _ this

theorem student_scores_ne_nil {data : List Record} {s : String}
    (h : s ∈ students data) : student_scores data s ≠ [] :=
  key_scores_ne_nil (fun r => r.name) h

/-- The per-student loop never raises: it returns one entry per
enumerated student. -/
theorem student_results_ok (data : List Record) :
    student_results data = Except.ok ((students data).map
      (fun s => (s, aggregateValue (student_scores data s)))) := by
  apply mapExcept_ok
  intro s hs
  rw [aggregateScores_eq_ok _ (student_scores_ne_nil hs)]

/-- Dict lookup on the association list built over the key list. -/
theorem lookup_map_self {f : String → AggregateStats} :
    ∀ (l : List String) (name : String), name ∈ l →
      (l.map (fun s => (s, f s))).lookup name = some (f name)
  | [], _, h => absurd h (List.not_mem_nil _)
  | s :: t, name, h => by
    by_cases hs : name = s
    · subst hs
      simp [List.lookup]
    · have hmem : name ∈ t := by
        rcases List.mem_cons.mp h with h1 | h1
        · exact absurd h1 hs
        · exact h1
      have hbeq : (name == s) = false := beq_eq_false_iff_ne.mpr hs
      simp only [List.map_cons, List.lookup, hbeq]
      exact lookup_map_self t name hmem

/-- On a file whose rows all parse and contain at least one record,
`analyze_student_scores` succeeds, printing the overview and the date
range and returning the per-student statistics dict. -/
theorem analyze_content_eq (rows : List RawRow) (d : Record)
    (ds : List Record) (hp : parseData rows = Except.ok (d :: ds)) :
    analyze_student_scores (FileInput.content rows) =
      (some ((students (d :: ds)).map
          (fun s => (s, aggregateValue (student_scores (d :: ds) s)))),
        [OutEvent.overviewCounts (d :: ds).length (students (d :: ds)).length
            (subjects (d :: ds)).length,
          OutEvent.dateRange (pyMinList d.date (ds.map (fun r => r.date)))
            (pyMaxList d.date (ds.map (fun r => r.date)))]) := by
  have hdates : dates (d :: ds) = d.date :: ds.map (fun r => r.date) := rfl
  simp only [analyze_student_scores, analyze_core, hp, hdates, pyMin, pyMax,
    student_results_ok]

/-- Summing, over the distinct values of a key, the number of records
matching that key gives the total number of records. -/
theorem sum_counts_eq_length (key : Record → String) (data : List Record) :
    (((data.map key).dedup).map
      (fun n => (data.filter (fun x => key x = n)).length)).sum
      = data.length := by
  have h1 : ∀ n, (data.filter (fun x => key x = n)).length
      = List.count n (data.map key) := by
    intro n
    rw [List.count_eq_countP, List.countP_map, ← List.countP_eq_length_filter]
    apply List.countP_congr
    intro a _
    simp only [Function.comp_apply, beq_iff_eq, decide_eq_true_eq]
  rw [List.map_congr_left (fun n _ => h1 n),
    List.sum_map_count_dedup_eq_length, List.length_map]

/-! ## Claim theorems -/

/-- C6: on the empty input sequence (header-only file, zero records) the
program has a defined failure mode: the `ValueError` raised by
`min(dates)` is caught by the generic handler, an error line is printed,
and the documented `None` sentinel is returned — no crash. -/
theorem empty_input_defined_failure :
    analyze_student_scores (FileInput.content []) =
      (none, [OutEvent.overviewCounts 0 0 0, OutEvent.errGeneric]) ∧
    (analyze_core []).2 = Except.error PyError.valueError := ⟨rfl, rfl⟩

/-- C7: when the input path does not resolve, the error is reported, the
computation aborts, and `main` produces no analysis output at all — the
transcript is exactly the file-not-found error line. -/
theorem main_file_not_found_aborts :
    main FileInput.notFound = [OutEvent.errFileNotFound] ∧
    (analyze_student_scores FileInput.notFound).1 = none := ⟨rfl, rfl⟩

/-- C8: running `analyze_student_scores` twice in sequence on the same
input yields identical results — the computation reads no hidden mutable
state (its only effect is console output). -/
theorem analyze_student_scores_idempotent (input : FileInput) :
    (run_twice input).1.1 = (run_twice input).1.2 := rfl

/-- C1: for a file whose rows parse into a non-empty record list and any
student name occurring in it, the dict returned by
`analyze_student_scores` maps that name to statistics whose count is the
number of records with that name, whose max and min are the true maximum
and minimum of those records' scores, and whose mean is their arithmetic
average rounded to 2 decimal places. -/
theorem analyze_student_scores_stats_correct (rows : List RawRow)
    (data : List Record) (name : String)
    (hp : parseData rows = Except.ok data)
    (hn : name ∈ data.map (fun r => r.name)) :
    ∃ results stats,
      (analyze_student_scores (FileInput.content rows)).1 = some results ∧
      results.lookup name = some stats ∧
      stats.count = (data.filter (fun r => r.name = name)).length ∧
      stats.max ∈ student_scores data name ∧
      (∀ y ∈ student_scores data name, y ≤ stats.max) ∧
      stats.min ∈ student_scores data name ∧
      (∀ y ∈ student_scores data name, stats.min ≤ y) ∧
      stats.mean = round2 (((student_scores data name).sum : ℚ) /
        ((student_scores data name).length : ℚ)) := by
  rcases data with _ | ⟨d, ds⟩
  · rw [List.map_nil] at hn
    exact absurd hn (List.not_mem_nil name)
  · have hmem : name ∈ students (d :: ds) := List.mem_dedup.mpr hn
    obtain ⟨v, vs, hvs⟩ :=
      List.exists_cons_of_ne_nil (student_scores_ne_nil hmem)
    refine ⟨(students (d :: ds)).map
        (fun s => (s, aggregateValue (student_scores (d :: ds) s))),
      aggregateValue (student_scores (d :: ds) name),
      ?_, ?_, ?_, ?_, ?_, ?_, ?_, ?_⟩
    · rw [analyze_content_eq rows d ds hp]
    · exact lookup_map_self _ name hmem
    · simp [aggregateValue, student_scores]
    · rw [hvs]
      exact pyMaxList_mem vs v
    · rw [hvs]
      exact le_pyMaxList vs v
    · rw [hvs]
      exact pyMinList_mem vs v
    · rw [hvs]
      exact pyMinList_le vs v
    · rfl

/-- C4: for a file whose rows parse and any name occurring in the parsed
records, the values sequence (スコア詳細) of that name's statistics is
exactly the scores of the matching records, in original input order. -/
theorem analyze_student_scores_values_order (rows : List RawRow)
    (data : List Record) (name : String)
    (hp : parseData rows = Except.ok data)
    (hn : name ∈ data.map (fun r => r.name)) :
    ∃ results stats,
      (analyze_student_scores (FileInput.content rows)).1 = some results ∧
      results.lookup name = some stats ∧
      stats.values =
        (data.filter (fun r => r.name = name)).map (fun r => r.score) := by
  rcases data with _ | ⟨d, ds⟩
  · rw [List.map_nil] at hn
    exact absurd hn (List.not_mem_nil name)
  · have hmem : name ∈ students (d :: ds) := List.mem_dedup.mpr hn
    exact ⟨(students (d :: ds)).map
        (fun s => (s, aggregateValue (student_scores (d :: ds) s))),
      aggregateValue (student_scores (d :: ds) name),
      by rw [analyze_content_eq rows d ds hp],
      lookup_map_self _ name hmem, rfl⟩

/-- C2: on a non-empty statistics mapping, `create_ranking` outputs a
sequence that is a permutation of the mapping, sorted by mean descending:
every adjacent pair (a, b) has mean(a) ≥ mean(b). -/
theorem create_ranking_sorted_desc (results : List (String × AggregateStats))
    (hne : results ≠ []) :
    ∃ ranked, create_ranking results = [OutEvent.rankingList ranked] ∧
      ranked.Perm results ∧
      List.Chain' (fun a b => b.2.mean ≤ a.2.mean) ranked := by
  obtain ⟨p, ps, rfl⟩ := List.exists_cons_of_ne_nil hne
  refine ⟨sorted_students (p :: ps), rfl, List.mergeSort_perm _ _, ?_⟩
  have htrans : ∀ a b c : String × AggregateStats,
      rankingLe a b = true → rankingLe b c = true → rankingLe a c = true := by
    intro a b c hab hbc
    simp only [rankingLe, decide_eq_true_eq] at hab hbc ⊢
    exact le_trans hbc hab
  have htot : ∀ a b : String × AggregateStats,
      (rankingLe a b || rankingLe b a) = true := by
    intro a b
    rcases le_total a.2.mean b.2.mean with h | h
    · have hba : rankingLe b a = true := by
        simp only [rankingLe, decide_eq_true_eq]
        exact h
      rw [hba, Bool.or_true]
    · have hab : rankingLe a b = true := by
        simp only [rankingLe, decide_eq_true_eq]
        exact h
      rw [hab, Bool.true_or]
  have hpw := List.sorted_mergeSort htrans htot (p :: ps)
  exact (hpw.imp (fun h => by
    simp only [rankingLe, decide_eq_true_eq] at h
    exact h)).chain'

/-- C3: the class summary printed by `display_results` on a non-empty
statistics collection carries the mean of the per-student (rounded) means,
the maximum of the per-student maxima and the minimum of the per-student
minima; consequently the max-of-maxima bounds every student's max from
above and the min-of-minima bounds every student's min from below. -/
theorem display_results_class_summary_bounds (p : String × AggregateStats)
    (ps : List (String × AggregateStats)) (q : String × AggregateStats)
    (hq : q ∈ p :: ps) :
    OutEvent.classSummary (classMean (p :: ps))
        (pyMaxList p.2.max (ps.map (fun r => r.2.max)))
        (pyMinList p.2.min (ps.map (fun r => r.2.min))) ∈
      display_results (p :: ps) ∧
    classMean (p :: ps) = (((p :: ps).map (fun r => r.2.mean)).sum : ℚ) /
      (((p :: ps).length : ℚ)) ∧
    q.2.max ≤ pyMaxList p.2.max (ps.map (fun r => r.2.max)) ∧
    pyMinList p.2.min (ps.map (fun r => r.2.min)) ≤ q.2.min := by
  refine ⟨?_, rfl, ?_, ?_⟩
  · exact List.mem_append_right _ (List.mem_cons_self _ _)
  · have hm : q.2.max ∈ p.2.max :: ps.map (fun r => r.2.max) := by
      rcases List.mem_cons.mp hq with rfl | h
      · exact List.mem_cons_self _ _
      · exact List.mem_cons_of_mem _ (List.mem_map.mpr ⟨q, h, rfl⟩)
    exact le_pyMaxList _ _ _ hm
  · have hm : q.2.min ∈ p.2.min :: ps.map (fun r => r.2.min) := by
      rcases List.mem_cons.mp hq with rfl | h
      · exact List.mem_cons_self _ _
      · exact List.mem_cons_of_mem _ (List.mem_map.mpr ⟨q, h, rfl⟩)
    exact pyMinList_le _ _ _ hm

/-- C5: each record belongs to exactly one group per grouping dimension:
its score is collected in the group of its own name (resp. subject) and it
matches no other key's filter; summing the per-key match counts over the
enumerated keys recovers the total record count, for both dimensions. -/
theorem grouping_partition_invariant (data : List Record) (r : Record)
    (s t : String) (hr : r ∈ data) :
    r.score ∈ student_scores data r.name ∧
    (r ∈ data.filter (fun x => x.name = s) ↔ s = r.name) ∧
    r.score ∈ subject_scores data r.subject ∧
    (r ∈ data.filter (fun x => x.subject = t) ↔ t = r.subject) ∧
    ((students data).map
      (fun n => (data.filter (fun x => x.name = n)).length)).sum
      = data.length ∧
    ((subjects data).map
      (fun n => (data.filter (fun x => x.subject = n)).length)).sum
      = data.length := by
  refine ⟨?_, ?_, ?_, ?_, ?_, ?_⟩
  · exact List.mem_map.mpr ⟨r, List.mem_filter.mpr ⟨hr, by simp⟩, rfl⟩
  · rw [List.mem_filter]
    simp [hr, eq_comm]
  · exact List.mem_map.mpr ⟨r, List.mem_filter.mpr ⟨hr, by simp⟩, rfl⟩
  · rw [List.mem_filter]
    simp [hr, eq_comm]
  · exact sum_counts_eq_length (fun x => x.name) data
  · exact sum_counts_eq_length (fun x => x.subject) data

/-- C9: on a successfully parsed non-empty record list, the overview
reports the date range as the minimum and maximum of the records' date
strings under the lexicographic (code-point) string order — the reported
bounds occur among the dates and bound every date. -/
theorem overview_date_range_lexical (rows : List RawRow) (d : Record)
    (ds : List Record) (x : String)
    (hp : parseData rows = Except.ok (d :: ds))
    (hx : x ∈ dates (d :: ds)) :
    OutEvent.dateRange (pyMinList d.date (ds.map (fun r => r.date)))
        (pyMaxList d.date (ds.map (fun r => r.date))) ∈
      (analyze_student_scores (FileInput.content rows)).2 ∧
    pyMinList d.date (ds.map (fun r => r.date)) ∈ dates (d :: ds) ∧
    pyMaxList d.date (ds.map (fun r => r.date)) ∈ dates (d :: ds) ∧
    pyMinList d.date (ds.map (fun r => r.date)) ≤ x ∧
    x ≤ pyMaxList d.date (ds.map (fun r => r.date)) := by
  have hd : dates (d :: ds) = d.date :: ds.map (fun r => r.date) := rfl
  refine ⟨?_, ?_, ?_, ?_, ?_⟩
  · rw [analyze_content_eq rows d ds hp]
    simp
  · rw [hd]
    exact pyMinList_mem _ _
  · rw [hd]
    exact pyMaxList_mem _ _
  · exact pyMinList_le _ _ x (hd ▸ hx)
  · exact le_pyMaxList _ _ x (hd ▸ hx)

/-- C10: `analyze_student_scores` never propagates an exception: whatever
the file contents, it returns either a statistics dict or the `None`
sentinel; in particular every exception raised inside the body (missing
file, malformed score, empty input) is converted to `None`. -/
theorem analyze_student_scores_never_raises (input : FileInput)
    (rows : List RawRow) (e : PyError)
    (herr : (analyze_core rows).2 = Except.error e) :
    ((analyze_student_scores input).1 = none ∨
      ∃ d, (analyze_student_scores input).1 = some d) ∧
    (analyze_student_scores (FileInput.content rows)).1 = none ∧
    (analyze_student_scores FileInput.notFound).1 = none := by
  refine ⟨?_, ?_, rfl⟩
  · cases h : (analyze_student_scores input).1 with
    | none => exact Or.inl rfl
    | some d => exact Or.inr ⟨d, rfl⟩
  · rcases hc : analyze_core rows with ⟨evs, ex⟩
    rw [hc] at herr
    have hex : ex = Except.error e := herr
    subst hex
    simp only [analyze_student_scores, hc]
    cases e <;> rfl

/-! ## Concrete inputs for the witnesses (the spec's §8 scenario) -/

/-- The spec's example scenario as raw CSV rows. -/
def rows0 : List RawRow :=
  [{ name := "Alice", date := "2024-01-01", subject := "数学", score := "80" },
   { name := "Alice", date := "2024-01-02", subject := "数学", score := "90" },
   { name := "Bob", date := "2024-01-01", subject := "数学", score := "70" }]

def record0 : Record :=
  { name := "Alice", date := "2024-01-01", subject := "数学", score := 80 }

def record1 : Record :=
  { name := "Alice", date := "2024-01-02", subject := "数学", score := 90 }

def record2 : Record :=
  { name := "Bob", date := "2024-01-01", subject := "数学", score := 70 }

/-- The parsed form of the example scenario. -/
def data0 : List Record := [record0, record1, record2]

def entryA : String × AggregateStats :=
  ("Alice", { mean := 85, max := 90, min := 80, count := 2, values := [80, 90] })

def entryB : String × AggregateStats :=
  ("Bob", { mean := 70, max := 70, min := 70, count := 1, values := [70] })

/-- A file whose single row has a malformed score field. -/
def badRows : List RawRow :=
  [{ name := "Alice", date := "2024-01-01", subject := "数学", score := "abc" }]

/-! ## Witnesses -/

/-- Witness for C1 at the example scenario, student Alice. -/
theorem analyze_student_scores_stats_correct_witness :
    parseData rows0 = Except.ok data0 ∧
    "Alice" ∈ data0.map (fun r => r.name) ∧
    ∃ results stats,
      (analyze_student_scores (FileInput.content rows0)).1 = some results ∧
      results.lookup "Alice" = some stats ∧
      stats.count = (data0.filter (fun r => r.name = "Alice")).length ∧
      stats.max ∈ student_scores data0 "Alice" ∧
      (∀ y ∈ student_scores data0 "Alice", y ≤ stats.max) ∧
      stats.min ∈ student_scores data0 "Alice" ∧
      (∀ y ∈ student_scores data0 "Alice", stats.min ≤ y) ∧
      stats.mean = round2 (((student_scores data0 "Alice").sum : ℚ) /
        ((student_scores data0 "Alice").length : ℚ)) :=
  ⟨rfl, by decide,
    analyze_student_scores_stats_correct rows0 data0 "Alice" rfl (by decide)⟩

/-- Witness for C4 at the example scenario, student Alice. -/
theorem analyze_student_scores_values_order_witness :
    parseData rows0 = Except.ok data0 ∧
    "Alice" ∈ data0.map (fun r => r.name) ∧
    ∃ results stats,
      (analyze_student_scores (FileInput.content rows0)).1 = some results ∧
      results.lookup "Alice" = some stats ∧
      stats.values =
        (data0.filter (fun r => r.name = "Alice")).map (fun r => r.score) :=
  ⟨rfl, by decide,
    analyze_student_scores_values_order rows0 data0 "Alice" rfl (by decide)⟩

/-- Witness for C2 at the example scenario's statistics mapping. -/
theorem create_ranking_sorted_desc_witness :
    [entryA, entryB] ≠ [] ∧
    ∃ ranked,
      create_ranking [entryA, entryB] = [OutEvent.rankingList ranked] ∧
      ranked.Perm [entryA, entryB] ∧
      List.Chain' (fun a b => b.2.mean ≤ a.2.mean) ranked :=
  ⟨by decide, create_ranking_sorted_desc [entryA, entryB] (by decide)⟩

/-- Witness for C3 at the example scenario's statistics mapping, checking
the bounds at Bob's entry. -/
theorem display_results_class_summary_bounds_witness :
    entryB ∈ entryA :: [entryB] ∧
    (OutEvent.classSummary (classMean (entryA :: [entryB]))
        (pyMaxList entryA.2.max ([entryB].map (fun r => r.2.max)))
        (pyMinList entryA.2.min ([entryB].map (fun r => r.2.min))) ∈
      display_results (entryA :: [entryB]) ∧
    classMean (entryA :: [entryB]) =
      (((entryA :: [entryB]).map (fun r => r.2.mean)).sum : ℚ) /
      (((entryA :: [entryB]).length : ℚ)) ∧
    entryB.2.max ≤ pyMaxList entryA.2.max ([entryB].map (fun r => r.2.max)) ∧
    pyMinList entryA.2.min ([entryB].map (fun r => r.2.min)) ≤ entryB.2.min) :=
  ⟨List.mem_cons_of_mem _ (List.mem_cons_self _ _),
    display_results_class_summary_bounds entryA [entryB] entryB
      (List.mem_cons_of_mem _ (List.mem_cons_self _ _))⟩

/-- Witness for C5 at the example scenario's first record. -/
theorem grouping_partition_invariant_witness :
    record0 ∈ data0 ∧
    (record0.score ∈ student_scores data0 record0.name ∧
    (record0 ∈ data0.filter (fun x => x.name = "Bob") ↔ "Bob" = record0.name) ∧
    record0.score ∈ subject_scores data0 record0.subject ∧
    (record0 ∈ data0.filter (fun x => x.subject = "数学") ↔
      "数学" = record0.subject) ∧
    ((students data0).map
      (fun n => (data0.filter (fun x => x.name = n)).length)).sum
      = data0.length ∧
    ((subjects data0).map
      (fun n => (data0.filter (fun x => x.subject = n)).length)).sum
      = data0.length) :=
  ⟨by decide, grouping_partition_invariant data0 record0 "Bob" "数学" (by decide)⟩

/-- Witness for C9 at the example scenario, bounding the middle date. -/
theorem overview_date_range_lexical_witness :
    parseData rows0 = Except.ok (record0 :: [record1, record2]) ∧
    "2024-01-02" ∈ dates (record0 :: [record1, record2]) ∧
    (OutEvent.dateRange
        (pyMinList record0.date ([record1, record2].map (fun r => r.date)))
        (pyMaxList record0.date ([record1, record2].map (fun r => r.date))) ∈
      (analyze_student_scores (FileInput.content rows0)).2 ∧
    pyMinList record0.date ([record1, record2].map (fun r => r.date)) ∈
      dates (record0 :: [record1, record2]) ∧
    pyMaxList record0.date ([record1, record2].map (fun r => r.date)) ∈
      dates (record0 :: [record1, record2]) ∧
    pyMinList record0.date ([record1, record2].map (fun r => r.date)) ≤
      "2024-01-02" ∧
    "2024-01-02" ≤
      pyMaxList record0.date ([record1, record2].map (fun r => r.date))) :=
  ⟨rfl, by decide,
    overview_date_range_lexical rows0 record0 [record1, record2] "2024-01-02"
      rfl (by decide)⟩

/-- Witness for C8 at the example scenario input. -/
theorem analyze_student_scores_idempotent_witness :
    (run_twice (FileInput.content rows0)).1.1 =
      (run_twice (FileInput.content rows0)).1.2 :=
  analyze_student_scores_idempotent (FileInput.content rows0)

/-- Witness for C10: a malformed score field makes the body raise and the
function return the sentinel. -/
theorem analyze_student_scores_never_raises_witness :
    (analyze_core badRows).2 = Except.error PyError.valueError ∧
    (((analyze_student_scores FileInput.notFound).1 = none ∨
      ∃ d, (analyze_student_scores FileInput.notFound).1 = some d) ∧
    (analyze_student_scores (FileInput.content badRows)).1 = none ∧
    (analyze_student_scores FileInput.notFound).1 = none) :=
  ⟨rfl, analyze_student_scores_never_raises FileInput.notFound badRows
    PyError.valueError rfl⟩

end SeisekiBunseki
